import Mathlib

/-
Verification of the mariner printer client and configuration loader.

The development shallowly embeds the two source modules:

* `config.py` — TOML-backed configuration getters. A loaded configuration
  is a list of key/value pairs (`List (String × TomlValue)`); the source's
  `_get_config` returns the empty mapping when no configuration file is
  found, which is the empty list here. Python's dynamic conversions
  (`str`, `int`, `bool`) are modelled by `pyStr`, `pyInt`, `pyBool`;
  conversions that raise in Python return `Except PyError` values.

* `mars.py` — the `ElegooMars` serial client. The serial port is modelled
  the way the unit tests model it (a mock holding the byte string its
  `readline` will return); `sendAndRead` embeds `_send_and_read`:
  the `none_throws` connectivity check, the `write`, the `readline`, and
  the strict UTF-8 `decode`. Reply parsing (`fwMatch` for the
  `M4002` firmware-version regexp) is embedded as pure functions on the
  decoded line.
-/

deriving instance DecidableEq for Except

/- ===== config.py ===== -/

/-- Values produced by `toml.loads` as far as config.py consumes them:
strings, integers, booleans and tables. -/
inductive TomlValue where
  | str (s : String)
  | int (n : Int)
  | boolean (b : Bool)
  | table (entries : List (String × TomlValue))

def TomlValue.isTable : TomlValue → Bool
  | .table _ => true
  | _ => false

/-- Python-level failures raised by the configuration getters. -/
inductive PyError where
  | nameError (n : String)
  | typeError (msg : String)
  | valueError (msg : String)
deriving DecidableEq

/-- Most-significant-first decimal value of a digit string. -/
def digitsVal (ds : List Char) : Nat :=
  ds.foldl (fun a c => a * 10 + (c.toNat - 48)) 0

/-- Python `int(...)` applied to a string: optional surrounding spaces,
optional sign, a nonempty run of decimal digits; anything else raises
`ValueError`. -/
def parseIntStr (s : String) : Except PyError Int :=
  let cs := s.data.dropWhile (fun c => c == ' ')
  let csr := (cs.reverse.dropWhile (fun c => c == ' ')).reverse
  match csr with
  | '-' :: ds =>
    if !ds.isEmpty && ds.all Char.isDigit then .ok (-(digitsVal ds : Int))
    else .error (.valueError s)
  | '+' :: ds =>
    if !ds.isEmpty && ds.all Char.isDigit then .ok (digitsVal ds)
    else .error (.valueError s)
  | ds =>
    if !ds.isEmpty && ds.all Char.isDigit then .ok (digitsVal ds)
    else .error (.valueError s)

mutual

/-- Python `str(...)` on a toml value. Dict rendering abbreviates CPython's
quote selection and escaping; configuration values here are plain. -/
def pyStr : TomlValue → String
  | .str s => s
  | .int n => toString n
  | .boolean b => if b then "True" else "False"
  | .table es => "\x7b" ++ pyStrEntries es ++ "\x7d"

def pyStrEntries : List (String × TomlValue) → String
  | [] => ""
  | [(k, v)] =>
    String.singleton (Char.ofNat 39) ++ k ++ String.singleton (Char.ofNat 39)
      ++ ": " ++ pyStr v
  | (k, v) :: rest =>
    String.singleton (Char.ofNat 39) ++ k ++ String.singleton (Char.ofNat 39)
      ++ ": " ++ pyStr v ++ ", " ++ pyStrEntries rest

end

/-- Python `int(...)` on a toml value; raises `TypeError` on a dict. -/
def pyInt : TomlValue → Except PyError Int
  | .str s => parseIntStr s
  | .int n => .ok n
  | .boolean b => .ok (if b then 1 else 0)
  | .table _ =>
    .error (.typeError "int() argument must be a string, a bytes-like object or a real number, not dict")

/-- Python `bool(...)` on a toml value (truthiness). -/
def pyBool : TomlValue → Bool
  | .str s => !s.data.isEmpty
  | .int n => !(n == 0)
  | .boolean b => b
  | .table es => !es.isEmpty

/-- TypeError raised by `int(None)` when a relay key is absent. -/
def intOfNoneError : PyError :=
  .typeError "int() argument must be a string, a bytes-like object or a real number, not NoneType"

/-- config.py `get_files_directory`: `Path(str(config.get("files_directory", "/mnt/usb_share")))`. -/
def get_files_directory (config : List (String × TomlValue)) : String :=
  match config.lookup "files_directory" with
  | some v => pyStr v
  | none => "/mnt/usb_share"

/-- config.py `get_printer_display_name`. -/
def get_printer_display_name (config : List (String × TomlValue)) : Option String :=
  match config.lookup "printer" with
  | some (.table t) =>
    match t.lookup "display_name" with
    | some v => some (pyStr v)
    | none => none
  | _ => none

/-- config.py `get_printer_serial_port`: default `/dev/serial0` when the
printer section is absent or not a table. -/
def get_printer_serial_port (config : List (String × TomlValue)) : String :=
  match config.lookup "printer" with
  | some (.table t) =>
    match t.lookup "serial_port" with
    | some v => pyStr v
    | none => "/dev/serial0"
  | _ => "/dev/serial0"

/-- config.py `get_printer_baudrate`: default 115200; a present value goes
through `int(...)`. -/
def get_printer_baudrate (config : List (String × TomlValue)) : Except PyError Int :=
  match config.lookup "printer" with
  | some (.table t) =>
    match t.lookup "baudrate" with
    | some v => pyInt v
    | none => .ok 115200
  | _ => .ok 115200

/-- config.py `get_relay_pin`: `int(printer_config.get("relay_pin", None))` —
a missing key reaches `int(None)`, which raises `TypeError`. -/
def get_relay_pin (config : List (String × TomlValue)) : Except PyError (Option Int) :=
  match config.lookup "relay_board" with
  | some (.table t) =>
    match t.lookup "relay_pin" with
    | some v => (pyInt v).map some
    | none => .error intOfNoneError
  | _ => .ok none

/-- config.py `get_relay_initial_value`: same `int(None)` behaviour on a
missing key. -/
def get_relay_initial_value (config : List (String × TomlValue)) : Except PyError (Option Int) :=
  match config.lookup "relay_board" with
  | some (.table t) =>
    match t.lookup "initial_value" with
    | some v => (pyInt v).map some
    | none => .error intOfNoneError
  | _ => .ok none

/-- config.py `get_relay_active_high`: `bool(printer_config.get("active_high", None))` —
a missing key yields `bool(None) = False`. -/
def get_relay_active_high (config : List (String × TomlValue)) : Option Bool :=
  match config.lookup "relay_board" with
  | some (.table t) =>
    match t.lookup "active_high" with
    | some v => some (pyBool v)
    | none => some false
  | _ => none

/-- config.py `get_http_host`: default `0.0.0.0`. -/
def get_http_host (config : List (String × TomlValue)) : String :=
  match config.lookup "http" with
  | some (.table t) =>
    match t.lookup "host" with
    | some v => pyStr v
    | none => "0.0.0.0"
  | _ => "0.0.0.0"

/-- config.py `get_http_port`: default 5050. -/
def get_http_port (config : List (String × TomlValue)) : Except PyError Int :=
  match config.lookup "http" with
  | some (.table t) =>
    match t.lookup "port" with
    | some v => pyInt v
    | none => .ok 5050
  | _ => .ok 5050

/-- config.py `get_cache_directory`: default `/tmp/mariner/`. -/
def get_cache_directory (config : List (String × TomlValue)) : String :=
  match config.lookup "cache" with
  | some (.table t) =>
    match t.lookup "directory" with
    | some v => pyStr v
    | none => "/tmp/mariner/"
  | _ => "/tmp/mariner/"

/-- config.py `get_ha_srv`: once the homeassistant section is a table, the
body evaluates `printer_config.get("address")`, but `printer_config` is not
a name in scope there (the other getters bind it locally), so reaching that
line raises `NameError`. -/
def get_ha_srv (config : List (String × TomlValue)) : Except PyError (Option String) :=
  match config.lookup "homeassistant" with
  | some (.table _) => .error (.nameError "printer_config")
  | _ => .ok none

/-- config.py `get_ha_usr`: same unbound `printer_config` reference. -/
def get_ha_usr (config : List (String × TomlValue)) : Except PyError (Option String) :=
  match config.lookup "homeassistant" with
  | some (.table _) => .error (.nameError "printer_config")
  | _ => .ok none

/-- config.py `get_ha_pass`: same unbound `printer_config` reference. -/
def get_ha_pass (config : List (String × TomlValue)) : Except PyError (Option String) :=
  match config.lookup "homeassistant" with
  | some (.table _) => .error (.nameError "printer_config")
  | _ => .ok none

/-- config.py `get_ha_topic`: same unbound `printer_config` reference. -/
def get_ha_topic (config : List (String × TomlValue)) : Except PyError (Option String) :=
  match config.lookup "homeassistant" with
  | some (.table _) => .error (.nameError "printer_config")
  | _ => .ok none

/- ===== mars.py ===== -/

/-- Is a byte a UTF-8 continuation byte (`10xxxxxx`)? -/
def utf8Cont (b : Nat) : Bool := 128 ≤ b && b < 192

/-- Strict UTF-8 decoding of a byte string, as `bytes.decode("utf-8")`:
rejects stray continuation bytes, overlong forms, surrogates and
code points above `0x10FFFF`; `none` models `UnicodeDecodeError`. -/
def utf8Decode : List Nat → Option (List Char)
  | [] => some []
  | b1 :: rest =>
    if b1 < 128 then
      (utf8Decode rest).map (fun cs => Char.ofNat b1 :: cs)
    else if b1 < 194 then
      none
    else if b1 < 224 then
      match rest with
      | b2 :: rest2 =>
        if utf8Cont b2 then
          (utf8Decode rest2).map (fun cs => Char.ofNat ((b1 - 192) * 64 + (b2 - 128)) :: cs)
        else none
      | [] => none
    else if b1 < 240 then
      match rest with
      | b2 :: b3 :: rest3 =>
        let cp := (b1 - 224) * 4096 + (b2 - 128) * 64 + (b3 - 128)
        if utf8Cont b2 && utf8Cont b3 && 2048 ≤ cp && !(55296 ≤ cp && cp < 57344) then
          (utf8Decode rest3).map (fun cs => Char.ofNat cp :: cs)
        else none
      | _ => none
    else if b1 < 245 then
      match rest with
      | b2 :: b3 :: b4 :: rest4 =>
        let cp := (b1 - 240) * 262144 + (b2 - 128) * 4096 + (b3 - 128) * 64 + (b4 - 128)
        if utf8Cont b2 && utf8Cont b3 && utf8Cont b4 && 65536 ≤ cp && cp ≤ 1114111 then
          (utf8Decode rest4).map (fun cs => Char.ofNat cp :: cs)
        else none
      | _ => none
    else none

/-- The serial port as the unit tests model it: a `Mock(spec=serial.Serial)`
holding the byte string its `readline` returns. `isOpen` tracks whether
`close()` has been called on it; the mock honours writes and reads either
way (pyserial-level behaviour is outside the client's code). -/
structure SerialPort where
  isOpen : Bool
  reply : List Nat
deriving DecidableEq

/-- mars.py `ElegooMars`: the only cross-call state is the optional serial
port handle (`_serial_port`, initially `None`). -/
structure ElegooMars where
  serial_port : Option SerialPort
deriving DecidableEq

/-- Failures surfaced by the client. `notConnected` is the `none_throws`
assertion in `_send_and_read`; `decodeFailure` is `UnicodeDecodeError`
from `.decode("utf-8")`; `invalidResponse` is the `none_throws` assertion
around the firmware-version regexp; `unexpectedResponse` carries the raw
reply for the spec-modelled operations. -/
inductive MarsError where
  | notConnected (msg : String)
  | decodeFailure (raw : List Nat)
  | invalidResponse (msg : String)
  | unexpectedResponse (raw : List Char)
deriving DecidableEq

/-- mars.py `open()`: constructs a fresh serial port and stores it in
`_serial_port`. The byte string the transport will later produce on
`readline` parameterises the model. -/
def openMars (_s : ElegooMars) (reply : List Nat) : ElegooMars :=
  ⟨some ⟨true, reply⟩⟩

/-- mars.py `close()`: `none_throws(self._serial_port).close()` — raises
when no port was ever opened, and otherwise closes the port WITHOUT
clearing `_serial_port`. -/
def closeMars (s : ElegooMars) : Except MarsError ElegooMars :=
  match s.serial_port with
  | none => .error (.notConnected "Unexpected None")
  | some p => .ok ⟨some ⟨false, p.reply⟩⟩

/-- mars.py `_send_and_read`: the `none_throws` connectivity check (only
`_serial_port is None` fails it), then `write(data)` and
`readline().decode("utf-8")`. The returned pair records the bytes written
and the decoded line. -/
def sendAndRead (s : ElegooMars) (data : List Char) :
    Except MarsError (List Char × List Char) :=
  match s.serial_port with
  | none => .error (.notConnected "Tried to communicate with serial port without opening it")
  | some p =>
    match utf8Decode p.reply with
    | some line => .ok (data, line)
    | none => .error (.decodeFailure p.reply)

/-- Character class of the firmware-version regexp: `[a-zA-Z0-9_.]`. -/
def fwTokenClass (c : Char) : Bool :=
  c.isAlpha || c.isDigit || c == '_' || c == '.'

/-- mars.py `get_firmware_version`'s pattern,
`re.search("^ok ([a-zA-Z0-9_.]+)\n$", data)`: the line must start with
`ok `, then a nonempty maximal run of class characters (maximal munch is
exact because `\n` is outside the class), then `\n` at the end — Python's
`$` also matches just before one additional final newline. -/
def fwMatch (line : List Char) : Option (List Char) :=
  match line with
  | 'o' :: 'k' :: ' ' :: rest =>
    if (rest.takeWhile fwTokenClass).isEmpty then none
    else if rest.dropWhile fwTokenClass == ['\n']
        || rest.dropWhile fwTokenClass == ['\n', '\n'] then
      some (rest.takeWhile fwTokenClass)
    else none
  | _ => none

/-- mars.py `get_firmware_version` applied to the decoded reply line:
returns the captured token, or raises the `none_throws` assertion
carrying "Received invalid status response from printer". -/
def get_firmware_version (line : List Char) : Except MarsError (List Char) :=
  match fwMatch line with
  | some tok => .ok tok
  | none => .error (.invalidResponse "Received invalid status response from printer")

/-- mars.py `get_firmware_version` end to end: `_send_and_read(b"M4002")`
then the regexp. -/
def get_firmware_version_run (s : ElegooMars) : Except MarsError (List Char) :=
  match sendAndRead s ("M4002".data) with
  | .ok (_, line) => get_firmware_version line
  | .error e => .error e

/-- mars.py `get_state`: `return self._send_and_read(b"M4000")` — the
decoded reply is returned as is, with no validation of any kind. -/
def get_state_run (s : ElegooMars) : Except MarsError (List Char) :=
  match sendAndRead s ("M4000".data) with
  | .ok (_, line) => .ok line
  | .error e => .error e

/- ===== operations present only in the tests, modelled from the spec ===== -/

/-- Printer state classification (spec §3 data model). -/
inductive PrinterState where
  | IDLE
  | STARTING_PRINT
  | PRINTING
  | PAUSED
  | UNKNOWN
deriving DecidableEq

/-- Print status record (spec §3 data model). -/
structure PrintStatus where
  state : PrinterState
  current_byte : Option Nat
  total_bytes : Option Nat
deriving DecidableEq

/-- The firmware's not-printing message as a full first line (the test
fixtures terminate it with CRLF). -/
def notPrintingMsg : List Char :=
  "Error:It".data ++ [Char.ofNat 39] ++ "s not printing now!\r\n".data

/-- Leading text of the SD progress reply. -/
def sdPrintingMsg : List Char := "SD printing byte ".data

/-- Does the remaining text begin an `ok` line? -/
def isOkLine (l : List Char) : Bool := "ok".data.isPrefixOf l

/-- Parse a nonempty maximal run of decimal digits from the front of the
text, returning its value and the rest. -/
def parseNat (cs : List Char) : Option (Nat × List Char) :=
  let ds := cs.takeWhile Char.isDigit
  if ds.isEmpty then none
  else some (digitsVal ds, cs.dropWhile Char.isDigit)

/-- Modelled from the spec: `get_print_status` is absent from
src/mariner/mars.py (only its tests exist there). Spec §4.3: the `M27`
reply is either the `Error:It`&apos;`s not printing now!` line followed by an
`ok` line — IDLE with both byte counts absent — or
`SD printing byte <cur>/<total>` followed by an `ok` line — byte counts
populated, STARTING_PRINT exactly when cur = 0, else PRINTING. -/
def printStatusOfLine (line : List Char) : Option PrintStatus :=
  if notPrintingMsg.isPrefixOf line && isOkLine (line.drop notPrintingMsg.length) then
    some ⟨.IDLE, none, none⟩
  else if sdPrintingMsg.isPrefixOf line then
    match parseNat (line.drop sdPrintingMsg.length) with
    | some (cur, '/' :: rest) =>
      match parseNat rest with
      | some (total, '\r' :: '\n' :: rest2) =>
        if isOkLine rest2 then
          some ⟨if cur = 0 then .STARTING_PRINT else .PRINTING, some cur, some total⟩
        else none
      | _ => none
    | _ => none
  else none

/-- Modelled from the spec: `get_print_status` on the reply text — any
reply matching neither shape raises an unexpected-response failure
carrying the raw text (spec §4.3, §4.4). -/
def get_print_status (line : List Char) : Except MarsError PrintStatus :=
  match printStatusOfLine line with
  | some st => .ok st
  | none => .error (.unexpectedResponse line)

/-- Decimal digit characters of `n`, most significant first, by structural
recursion on a fuel bound. -/
def natDigitsAux : Nat → Nat → List Char
  | 0, _ => []
  | fuel + 1, n =>
    if n < 10 then [Nat.digitChar n]
    else natDigitsAux fuel (n / 10) ++ [Nat.digitChar (n % 10)]

/-- Decimal rendering of a natural number. -/
def natDigits (n : Nat) : List Char := natDigitsAux (n + 1) n

/-- Python's fixed-point formatting `f"..:.1f"` on a value that is an exact
number of tenths `t`: explicit minus sign for negative values, the integer
part, a dot, and exactly one fractional digit. This is the formatting of
src/mariner/mars.py `move_to` (`f"G0 Z.. :.1f"`), restricted to inputs
exact in tenths so that IEEE rounding never engages. -/
def fmtTenths (t : Int) : List Char :=
  (if t < 0 then ['-'] else []) ++ natDigits (t.natAbs / 10)
    ++ '.' :: natDigits (t.natAbs % 10)

/-- src/mariner/mars.py `move_to`: writes `G0 Z<z_pos:.1f>`. -/
def move_to (t : Int) : List Char := "G0 Z".data ++ fmtTenths t

/-- Modelled from the spec: `move_by` is absent from src/mariner/mars.py
(only `move_to` with the same `:.1f` formatting is there). Spec §4.3/§8:
`move_by(delta, mm_per_min)` writes `G0 Z<delta> F<rate> I0` with the delta
rendered with exactly one digit after the decimal point. The delta is the
exact number of tenths `t`. -/
def move_by (t : Int) (mm_per_min : Nat) : List Char :=
  "G0 Z".data ++ fmtTenths t ++ " F".data ++ natDigits mm_per_min ++ " I0".data

/-- Modelled from the spec: the one-argument form of `move_by`, whose
`mm_per_min` defaults to 600. -/
def move_by1 (t : Int) : List Char := move_by t 600

/- ===== helper lemmas ===== -/

/-- Everything `takeWhile` keeps satisfies the predicate. -/
theorem memTakeWhileTrue {p : Char → Bool} :
    ∀ (l : List Char), ∀ c ∈ l.takeWhile p, p c = true := by
  intro l
  induction l with
  | nil => intro c hc; simp [List.takeWhile] at hc
  | cons a tl ih =>
    intro c hc
    by_cases ha : p a = true
    · rw [List.takeWhile_cons, if_pos ha] at hc
      rcases List.mem_cons.mp hc with h | h
      · rwa [h]
      · exact ih c h
    · rw [List.takeWhile_cons, if_neg ha] at hc
      simp at hc

/-- The first element `dropWhile` exposes fails the predicate. -/
theorem dropWhileHeadFalse {p : Char → Bool} :
    ∀ (l : List Char) (c : Char) (tl : List Char), l.dropWhile p = c :: tl → p c = false := by
  intro l
  induction l with
  | nil => intro c tl h; simp [List.dropWhile] at h
  | cons a r ih =>
    intro c tl h
    rw [List.dropWhile_cons] at h
    by_cases ha : p a = true
    · rw [if_pos ha] at h; exact ih c tl h
    · rw [if_neg ha] at h
      obtain ⟨h1, _⟩ := List.cons.inj h
      rw [← h1]
      exact Bool.not_eq_true _ |>.mp ha

/-- `takeWhile`/`dropWhile` on an all-satisfying block followed by a
failing character split exactly at that character. -/
theorem spanAll {p : Char → Bool} (xs : List Char) (c : Char) (tl : List Char)
    (hxs : ∀ a ∈ xs, p a = true) (hc : p c = false) :
    (xs ++ c :: tl).takeWhile p = xs ∧ (xs ++ c :: tl).dropWhile p = c :: tl := by
  induction xs with
  | nil =>
    constructor
    · rw [List.nil_append, List.takeWhile_cons, hc]; simp
    · rw [List.nil_append, List.dropWhile_cons, hc]; simp
  | cons a r ih =>
    have ha : p a = true := hxs a (List.mem_cons_self a r)
    have hr : ∀ a ∈ r, p a = true := fun x hx => hxs x (List.mem_cons_of_mem a hx)
    obtain ⟨ih1, ih2⟩ := ih hr
    constructor
    · rw [List.cons_append, List.takeWhile_cons, ha]; simp [ih1]
    · rw [List.cons_append, List.dropWhile_cons, ha]; simp [ih2]

/-- `parseNat` on a nonempty digit block followed by a non-digit. -/
theorem parseNatAppend (ds : List Char) (c : Char) (tl : List Char)
    (hne : ds ≠ []) (hds : ∀ a ∈ ds, a.isDigit = true) (hc : c.isDigit = false) :
    parseNat (ds ++ c :: tl) = some (digitsVal ds, c :: tl) := by
  obtain ⟨h1, h2⟩ := spanAll ds c tl hds hc
  have hne2 : ds.isEmpty = false := by
    cases ds with
    | nil => exact absurd rfl hne
    | cons a r => rfl
  simp [parseNat, h1, h2, hne2]

/-- Inversion for `parseNat`: a successful parse splits the input into a
nonempty digit block and the rest. -/
theorem parseNatInv (l : List Char) (n : Nat) (r : List Char)
    (h : parseNat l = some (n, r)) :
    ∃ ds, ds ≠ [] ∧ (∀ a ∈ ds, a.isDigit = true) ∧ l = ds ++ r ∧ n = digitsVal ds := by
  unfold parseNat at h
  by_cases he : (l.takeWhile Char.isDigit).isEmpty = true
  · simp [he] at h
  · simp only [he, Bool.false_eq_true, if_false, Option.some.injEq, Prod.mk.injEq] at h
    obtain ⟨hn, hr⟩ := h
    refine ⟨l.takeWhile Char.isDigit, ?_, memTakeWhileTrue l, ?_, hn.symm⟩
    · intro hnil; rw [hnil] at he; simp at he
    · rw [← hr]; exact (List.takeWhile_append_dropWhile Char.isDigit l).symm

/-- A true `isPrefixOf` yields an explicit decomposition. -/
theorem isPrefixOfExists : ∀ (xs ys : List Char), xs.isPrefixOf ys = true →
    ∃ t, ys = xs ++ t := by
  intro xs
  induction xs with
  | nil => intro ys _; exact ⟨ys, rfl⟩
  | cons a r ih =>
    intro ys h
    cases ys with
    | nil => simp [List.isPrefixOf] at h
    | cons b tl =>
      rw [List.isPrefixOf, Bool.and_eq_true, beq_iff_eq] at h
      obtain ⟨hab, hrest⟩ := h
      obtain ⟨t, ht⟩ := ih tl hrest
      exact ⟨t, by rw [hab, ht]; rfl⟩

/-- A list is a prefix of itself followed by anything. -/
theorem isPrefixOfAppend : ∀ (xs ys : List Char), xs.isPrefixOf (xs ++ ys) = true := by
  intro xs ys
  induction xs with
  | nil => cases ys <;> rfl
  | cons a r ih => simp [List.isPrefixOf, ih]

/-- `isOkLine` holds exactly on text starting with `ok`. -/
theorem isOkLineIff (l : List Char) : isOkLine l = true ↔ ∃ t, l = 'o' :: 'k' :: t := by
  constructor
  · intro h
    obtain ⟨t, ht⟩ := isPrefixOfExists _ _ h
    exact ⟨t, ht⟩
  · rintro ⟨t, rfl⟩
    exact isPrefixOfAppend "ok".data t

/-- `digitsVal` over a block extended by one digit. -/
theorem digitsValAppendSingleton (xs : List Char) (c : Char) :
    digitsVal (xs ++ [c]) = digitsVal xs * 10 + (c.toNat - 48) := by
  simp [digitsVal, List.foldl_append]

/-- `Nat.digitChar` on an actual digit is a digit character of that value. -/
theorem digitCharSpec (n : Nat) (h : n < 10) :
    (Nat.digitChar n).isDigit = true ∧ (Nat.digitChar n).toNat - 48 = n := by
  interval_cases n <;> exact ⟨by decide, by decide⟩

/-- `natDigitsAux` with sufficient fuel renders exactly the decimal digits. -/
theorem natDigitsAuxSpec : ∀ (fuel n : Nat), n < fuel →
    (∀ c ∈ natDigitsAux fuel n, c.isDigit = true) ∧
    natDigitsAux fuel n ≠ [] ∧
    digitsVal (natDigitsAux fuel n) = n := by
  intro fuel
  induction fuel with
  | zero => intro n h; omega
  | succ f ih =>
    intro n h
    by_cases h10 : n < 10
    · obtain ⟨hd, hv⟩ := digitCharSpec n h10
      refine ⟨?_, ?_, ?_⟩
      · intro c hc
        simp [natDigitsAux, h10] at hc
        rwa [hc]
      · simp [natDigitsAux, h10]
      · simp [natDigitsAux, h10, digitsVal, hv]
    · have hdiv : n / 10 < f := by
        have h1 : n / 10 < n := Nat.div_lt_self (by omega) (by omega)
        omega
      obtain ⟨ihd, ihne, ihv⟩ := ih (n / 10) hdiv
      have hmod : n % 10 < 10 := Nat.mod_lt _ (by omega)
      obtain ⟨hd, hv⟩ := digitCharSpec (n % 10) hmod
      refine ⟨?_, ?_, ?_⟩
      · intro c hc
        simp only [natDigitsAux, h10, if_false, List.mem_append, List.mem_singleton] at hc
        rcases hc with hc | hc
        · exact ihd c hc
        · rwa [hc]
      · simp [natDigitsAux, h10]
      · rw [show natDigitsAux (f + 1) n
              = natDigitsAux f (n / 10) ++ [Nat.digitChar (n % 10)] by
            simp [natDigitsAux, h10]]
        rw [digitsValAppendSingleton, ihv, hv]
        omega

/-- `natDigits` renders the decimal digits of its argument. -/
theorem natDigitsSpec (n : Nat) :
    (∀ c ∈ natDigits n, c.isDigit = true) ∧ natDigits n ≠ [] ∧
    digitsVal (natDigits n) = n :=
  natDigitsAuxSpec (n + 1) n (by omega)

/-- A single-digit number renders as its digit character. -/
theorem natDigitsSmall (n : Nat) (h : n < 10) : natDigits n = [Nat.digitChar n] := by
  simp [natDigits, natDigitsAux, h]

/-- Two nonempty lists with distinct heads are not prefix-related. -/
theorem isPrefixOfConsFalse (a b : Char) (as bs : List Char) (h : (a == b) = false) :
    (a :: as).isPrefixOf (b :: bs) = false := by
  simp [List.isPrefixOf, h]

/-- Inversion for the firmware-version pattern: a match pins down the
shape of the line and the token. -/
theorem fwMatchInv (l tok : List Char) (h : fwMatch l = some tok) :
    ∃ rest, l = 'o' :: 'k' :: ' ' :: rest ∧
      tok = rest.takeWhile fwTokenClass ∧ tok ≠ [] ∧
      (rest.dropWhile fwTokenClass = ['\n'] ∨ rest.dropWhile fwTokenClass = ['\n', '\n']) := by
  unfold fwMatch at h
  split at h
  next rest =>
    by_cases h1 : (rest.takeWhile fwTokenClass).isEmpty = true
    · rw [if_pos h1] at h; exact absurd h (by simp)
    · rw [if_neg h1] at h
      by_cases h2 : (rest.dropWhile fwTokenClass == ['\n']
          || rest.dropWhile fwTokenClass == ['\n', '\n']) = true
      · rw [if_pos h2] at h
        have htok : rest.takeWhile fwTokenClass = tok := by simpa using h
        refine ⟨rest, rfl, htok.symm, ?_, ?_⟩
        · intro hnil
          rw [← htok] at hnil
          exact h1 (by rw [hnil]; rfl)
        · simpa [Bool.or_eq_true, beq_iff_eq] using h2
      · rw [if_neg h2] at h; exact absurd h (by simp)
  next => exact absurd h (by simp)

/- ===== claim theorems ===== -/

/-- C8: with no configuration file — `_get_config` then yields the empty
mapping — every getter returns its documented default, in particular
serial port `/dev/serial0` and baud rate 115200; and a section that is
present but not a table makes that section's getters fall back to the
same defaults instead of failing. -/
theorem C8_config_defaults :
    (∀ v : TomlValue, v.isTable = false →
      get_printer_serial_port [("printer", v)] = "/dev/serial0" ∧
      get_printer_baudrate [("printer", v)] = .ok 115200 ∧
      get_printer_display_name [("printer", v)] = none ∧
      get_relay_pin [("relay_board", v)] = .ok none ∧
      get_relay_initial_value [("relay_board", v)] = .ok none ∧
      get_relay_active_high [("relay_board", v)] = none ∧
      get_http_host [("http", v)] = "0.0.0.0" ∧
      get_http_port [("http", v)] = .ok 5050 ∧
      get_cache_directory [("cache", v)] = "/tmp/mariner/" ∧
      get_ha_srv [("homeassistant", v)] = .ok none) ∧
    get_printer_serial_port [] = "/dev/serial0" ∧
    get_printer_baudrate [] = .ok 115200 ∧
    get_files_directory [] = "/mnt/usb_share" ∧
    get_printer_display_name [] = none ∧
    get_relay_pin [] = .ok none ∧
    get_relay_initial_value [] = .ok none ∧
    get_relay_active_high [] = none ∧
    get_http_host [] = "0.0.0.0" ∧
    get_http_port [] = .ok 5050 ∧
    get_cache_directory [] = "/tmp/mariner/" ∧
    get_ha_srv [] = .ok none ∧ get_ha_usr [] = .ok none ∧
    get_ha_pass [] = .ok none ∧ get_ha_topic [] = .ok none := by
  constructor
  · intro v hv
    cases v with
    | table es => simp [TomlValue.isTable] at hv
    | str s =>
      refine ⟨rfl, rfl, rfl, rfl, rfl, rfl, rfl, rfl, rfl, rfl⟩
    | int n =>
      refine ⟨rfl, rfl, rfl, rfl, rfl, rfl, rfl, rfl, rfl, rfl⟩
    | boolean b =>
      refine ⟨rfl, rfl, rfl, rfl, rfl, rfl, rfl, rfl, rfl, rfl⟩
  · refine ⟨rfl, rfl, rfl, rfl, rfl, rfl, rfl, rfl, rfl, rfl, rfl, rfl, rfl, rfl⟩

/-- Witness for C8 at a malformed printer section (a bare string). -/
theorem C8_config_defaults_witness :
    get_printer_serial_port [("printer", .str "oops")] = "/dev/serial0" ∧
    get_printer_baudrate [("printer", .str "oops")] = .ok 115200 := by
  have h := C8_config_defaults.1 (.str "oops") (by decide)
  exact ⟨h.1, h.2.1⟩

/-- C9 (code bug): with a homeassistant table present, each ha getter
evaluates the unbound name `printer_config` and raises `NameError`
instead of reading its key from the homeassistant section. -/
theorem C9_ha_getters_name_error :
    get_ha_srv [("homeassistant", .table [("address", .str "mqtt.local")])]
      = .error (.nameError "printer_config") ∧
    get_ha_usr [("homeassistant", .table [("user", .str "mariner")])]
      = .error (.nameError "printer_config") ∧
    get_ha_pass [("homeassistant", .table [("password", .str "hunter2")])]
      = .error (.nameError "printer_config") ∧
    get_ha_topic [("homeassistant", .table [("topic", .str "mariner/status")])]
      = .error (.nameError "printer_config") :=
  ⟨rfl, rfl, rfl, rfl⟩

/-- C10: when the relay_board section is a table lacking the queried key,
get_relay_pin and get_relay_initial_value reach `int(None)` and raise its
TypeError rather than returning none, while get_relay_active_high returns
false; and a none result from these getters can only arise when the
relay_board section is absent or not a table. -/
theorem C10_relay_missing_keys (t : List (String × TomlValue))
    (h1 : t.lookup "relay_pin" = none)
    (h2 : t.lookup "initial_value" = none)
    (h3 : t.lookup "active_high" = none) :
    get_relay_pin [("relay_board", .table t)] = .error intOfNoneError ∧
    get_relay_initial_value [("relay_board", .table t)] = .error intOfNoneError ∧
    get_relay_active_high [("relay_board", .table t)] = some false ∧
    (∀ config u, config.lookup "relay_board" = some (.table u) →
      get_relay_pin config ≠ .ok none ∧
      get_relay_initial_value config ≠ .ok none ∧
      get_relay_active_high config ≠ none) := by
  refine ⟨?_, ?_, ?_, ?_⟩
  · simp [get_relay_pin, List.lookup, h1]
  · simp [get_relay_initial_value, List.lookup, h2]
  · simp [get_relay_active_high, List.lookup, h3]
  · intro config u hu
    refine ⟨?_, ?_, ?_⟩
    · rw [get_relay_pin, hu]
      cases hp : u.lookup "relay_pin" with
      | none => simp [hp]
      | some v =>
        cases hv : pyInt v with
        | ok n => simp [hp, hv, Except.map]
        | error e => simp [hp, hv, Except.map]
    · rw [get_relay_initial_value, hu]
      cases hp : u.lookup "initial_value" with
      | none => simp [hp]
      | some v =>
        cases hv : pyInt v with
        | ok n => simp [hp, hv, Except.map]
        | error e => simp [hp, hv, Except.map]
    · rw [get_relay_active_high, hu]
      cases hp : u.lookup "active_high" with
      | none => simp [hp]
      | some v => simp [hp]

/-- Witness for C10 at an empty relay_board table. -/
theorem C10_relay_missing_keys_witness :
    get_relay_pin [("relay_board", .table [])] = .error intOfNoneError ∧
    get_relay_initial_value [("relay_board", .table [])] = .error intOfNoneError ∧
    get_relay_active_high [("relay_board", .table [])] = some false := by
  have h := C10_relay_missing_keys [] rfl rfl rfl
  exact ⟨h.1, h.2.1, h.2.2.1⟩

/-- C4 counterexample: after open() then close(), a command is not
rejected with a not-connected failure — `close()` leaves `_serial_port`
set, so the exchange goes through and reaches the transport. -/
theorem C4_counterexample :
    closeMars (openMars ⟨none⟩ ("ok N:0\n".data.map Char.toNat))
      = .ok ⟨some ⟨false, "ok N:0\n".data.map Char.toNat⟩⟩ ∧
    sendAndRead ⟨some ⟨false, "ok N:0\n".data.map Char.toNat⟩⟩ ("M4000".data)
      = .ok ("M4000".data, "ok N:0\n".data) :=
  ⟨by decide, by decide⟩

/-- C4 (amended): a command before any open() fails with the
not-connected assertion, but after close() the serial handle is retained,
so the command proceeds to transport I/O on the closed port — the write
happens and the read's bytes are decoded — instead of failing with a
not-connected error. -/
theorem C4_connection_lifecycle (s : ElegooMars) (reply : List Nat) (cmd : List Char) :
    (s.serial_port = none →
      sendAndRead s cmd
        = .error (.notConnected "Tried to communicate with serial port without opening it")) ∧
    (∀ s2, closeMars (openMars s reply) = .ok s2 →
      s2.serial_port = some ⟨false, reply⟩ ∧
      sendAndRead s2 cmd
        = (match utf8Decode reply with
           | some line => .ok (cmd, line)
           | none => .error (.decodeFailure reply))) := by
  constructor
  · intro h
    simp [sendAndRead, h]
  · intro s2 h
    have h2 : s2 = ⟨some ⟨false, reply⟩⟩ := by
      simpa [closeMars, openMars] using h.symm
    subst h2
    refine ⟨rfl, ?_⟩
    cases hd : utf8Decode reply with
    | some line => simp [sendAndRead, hd]
    | none => simp [sendAndRead, hd]

/-- Witness for C4 at a fresh client and at concrete closed state. -/
theorem C4_connection_lifecycle_witness :
    sendAndRead ⟨none⟩ ("M4002".data)
      = .error (.notConnected "Tried to communicate with serial port without opening it") ∧
    sendAndRead ⟨some ⟨false, "ok N:0\n".data.map Char.toNat⟩⟩ ("M4000".data)
      = .ok ("M4000".data, "ok N:0\n".data) := by
  constructor
  · exact (C4_connection_lifecycle ⟨none⟩ [] ("M4002".data)).1 rfl
  · have h := (C4_connection_lifecycle ⟨none⟩ ("ok N:0\n".data.map Char.toNat)
      ("M4000".data)).2 ⟨some ⟨false, "ok N:0\n".data.map Char.toNat⟩⟩ (by decide)
    rw [h.2]
    decide

/-- C5 counterexample: get_state returns a reply that is not an ok line
verbatim instead of raising an unexpected-response failure. -/
theorem C5_counterexample :
    get_state_run (openMars ⟨none⟩ ("Error:foo\n".data.map Char.toNat))
      = .ok ("Error:foo\n".data) := by decide

/-- C5 (amended): get_state performs no validation at all — whenever the
reply decodes, the raw text is returned as is, ok line or not, and its
only failure modes are the not-connected assertion and the decode error;
get_firmware_version, by contrast, does validate its reply against the
M4002 pattern and fails on mismatch. -/
theorem C5_get_state_no_validation :
    (∀ reply line, utf8Decode reply = some line →
      get_state_run (openMars ⟨none⟩ reply) = .ok line) ∧
    (∀ s e, get_state_run s = .error e →
      (∃ m, e = .notConnected m) ∨ (∃ bs, e = .decodeFailure bs)) ∧
    (∀ line, fwMatch line = none →
      get_firmware_version line
        = .error (.invalidResponse "Received invalid status response from printer")) := by
  refine ⟨?_, ?_, ?_⟩
  · intro reply line h
    simp [get_state_run, sendAndRead, openMars, h]
  · intro s e h
    rw [get_state_run] at h
    cases hs : s.serial_port with
    | none =>
      rw [sendAndRead, hs] at h
      simp at h
      exact Or.inl ⟨_, h.symm⟩
    | some p =>
      rw [sendAndRead, hs] at h
      cases hd : utf8Decode p.reply with
      | some line => simp [hd] at h
      | none =>
        simp [hd] at h
        exact Or.inr ⟨_, h.symm⟩
  · intro line h
    simp [get_firmware_version, h]

/-- Witness for C5 on a non-ok reply line. -/
theorem C5_get_state_no_validation_witness :
    get_state_run (openMars ⟨none⟩ ("foobar\r\n".data.map Char.toNat))
      = .ok ("foobar\r\n".data) :=
  C5_get_state_no_validation.1 _ _ (by decide)

/-- C6 counterexample: a read that produced zero bytes is returned as an
ordinary empty string, not raised as a distinct no-response failure. -/
theorem C6_counterexample :
    sendAndRead (openMars ⟨none⟩ []) ("M4002".data) = .ok ("M4002".data, []) := by
  decide

/-- C6 (amended): `_send_and_read` raises nothing on empty or truncated
reads — whatever `readline` produced is decoded and returned, so the
zero-byte and partial-line cases give the same kind of outcome; the only
reply-related failure is the decode error on invalid UTF-8, distinct from
the not-connected assertion. -/
theorem C6_timeout_cases_merged :
    (∀ reply line cmd, utf8Decode reply = some line →
      sendAndRead (openMars ⟨none⟩ reply) cmd = .ok (cmd, line)) ∧
    (∀ reply cmd, utf8Decode reply = none →
      sendAndRead (openMars ⟨none⟩ reply) cmd = .error (.decodeFailure reply)) ∧
    utf8Decode [] = some [] ∧
    utf8Decode ("ok N:".data.map Char.toNat) = some ("ok N:".data) ∧
    utf8Decode [255] = none := by
  refine ⟨?_, ?_, by decide, by decide, by decide⟩
  · intro reply line cmd h
    simp [sendAndRead, openMars, h]
  · intro reply cmd h
    simp [sendAndRead, openMars, h]

/-- Witness for C6 on a truncated, non-terminated line. -/
theorem C6_timeout_cases_merged_witness :
    sendAndRead (openMars ⟨none⟩ ("ok N:".data.map Char.toNat)) ("M27".data)
      = .ok ("M27".data, "ok N:".data) :=
  C6_timeout_cases_merged.1 _ _ _ (by decide)

/-- C7: the firmware-version result is a pure function of the underlying
reply — two invocations whose ports carry the same reply bytes yield the
same outcome, whatever the rest of the state. -/
theorem C7_firmware_version_pure (p q : SerialPort) (h : p.reply = q.reply) :
    get_firmware_version_run ⟨some p⟩ = get_firmware_version_run ⟨some q⟩ := by
  cases p with
  | mk o1 r1 =>
    cases q with
    | mk o2 r2 =>
      simp only [SerialPort.reply] at h
      subst h
      rfl

/-- Witness for C7: same reply on an open and on a closed port. -/
theorem C7_firmware_version_pure_witness :
    get_firmware_version_run ⟨some ⟨true, "ok V4.3.4_LCDC\n".data.map Char.toNat⟩⟩
      = get_firmware_version_run ⟨some ⟨false, "ok V4.3.4_LCDC\n".data.map Char.toNat⟩⟩ :=
  C7_firmware_version_pure _ _ rfl

/-- C3: on a single newline-terminated reply line, get_firmware_version
returns a token exactly when the line is `ok <token>` for a nonempty
token of letters, digits, dots and underscores, and fails with the
invalid-response assertion on every other such line. -/
theorem C3_firmware_version (body : List Char) (hnl : '\n' ∉ body) :
    (∀ tok, get_firmware_version (body ++ ['\n']) = .ok tok ↔
      (tok ≠ [] ∧ (∀ c ∈ tok, fwTokenClass c = true) ∧ body = 'o' :: 'k' :: ' ' :: tok)) ∧
    ((∀ tok, ¬(tok ≠ [] ∧ (∀ c ∈ tok, fwTokenClass c = true) ∧ body = 'o' :: 'k' :: ' ' :: tok)) →
      get_firmware_version (body ++ ['\n'])
        = .error (.invalidResponse "Received invalid status response from printer")) := by
  have key : ∀ tok, fwMatch (body ++ ['\n']) = some tok ↔
      (tok ≠ [] ∧ (∀ c ∈ tok, fwTokenClass c = true) ∧ body = 'o' :: 'k' :: ' ' :: tok) := by
    intro tok
    constructor
    · intro h
      obtain ⟨rest, hl, htok, hne, hrem⟩ := fwMatchInv _ _ h
      rcases body with _ | ⟨b0, body⟩
      · simp at hl
      rcases body with _ | ⟨b1, body⟩
      · rw [List.cons_append, List.nil_append] at hl
        obtain ⟨-, h2⟩ := List.cons.inj hl
        obtain ⟨-, h4⟩ := List.cons.inj h2
        exact absurd h4 (by simp)
      rcases body with _ | ⟨b2, body3⟩
      · rw [List.cons_append, List.cons_append, List.nil_append] at hl
        obtain ⟨-, h2⟩ := List.cons.inj hl
        obtain ⟨-, h3⟩ := List.cons.inj h2
        obtain ⟨h4, -⟩ := List.cons.inj h3
        exact absurd h4 (by decide)
      · rw [List.cons_append, List.cons_append, List.cons_append] at hl
        obtain ⟨hb0, h2⟩ := List.cons.inj hl
        obtain ⟨hb1, h3⟩ := List.cons.inj h2
        obtain ⟨hb2, hrest⟩ := List.cons.inj h3
        subst hb0; subst hb1; subst hb2
        subst hrest
        have hnl3 : '\n' ∉ body3 := fun hm => hnl (by simp [hm])
        have hsplit : (body3 ++ ['\n']).takeWhile fwTokenClass
              ++ (body3 ++ ['\n']).dropWhile fwTokenClass = body3 ++ ['\n'] :=
          List.takeWhile_append_dropWhile fwTokenClass (body3 ++ ['\n'])
        rcases hrem with hrem | hrem
        · rw [hrem] at hsplit
          obtain ⟨h5, -⟩ := List.append_inj' hsplit rfl
          refine ⟨hne, ?_, ?_⟩
          · intro c hc
            rw [htok] at hc
            exact memTakeWhileTrue _ c hc
          · rw [htok, h5]
        · rw [hrem] at hsplit
          rw [show (body3 ++ ['\n']).takeWhile fwTokenClass ++ ['\n', '\n']
              = ((body3 ++ ['\n']).takeWhile fwTokenClass ++ ['\n']) ++ ['\n'] by simp] at hsplit
          obtain ⟨h5, -⟩ := List.append_inj' hsplit rfl
          exact absurd (h5 ▸ List.mem_append_right _ (by simp)) hnl3
    · rintro ⟨hne, hclass, rfl⟩
      have hsp := spanAll tok '\n' [] hclass (by decide)
      have he : tok.isEmpty = false := by
        cases tok with
        | nil => exact absurd rfl hne
        | cons a r => rfl
      simp only [List.cons_append]
      simp [fwMatch, hsp.1, hsp.2, he]
  constructor
  · intro tok
    constructor
    · intro h
      cases hm : fwMatch (body ++ ['\n']) with
      | some t =>
        have hshape := (key t).mp hm
        rw [get_firmware_version, hm] at h
        obtain rfl : t = tok := by simpa using h
        exact hshape
      | none =>
        rw [get_firmware_version, hm] at h
        simp at h
    · intro hshape
      rw [get_firmware_version, (key tok).mpr hshape]
  · intro hno
    cases hm : fwMatch (body ++ ['\n']) with
    | some t => exact absurd ((key t).mp hm) (hno t)
    | none => rw [get_firmware_version, hm]

/-- Witness for C3 at the test fixture reply `ok V4.3.4_LCDC`. -/
theorem C3_firmware_version_witness :
    get_firmware_version ("ok V4.3.4_LCDC\n".data) = .ok ("V4.3.4_LCDC".data) := by
  have h := (C3_firmware_version ("ok V4.3.4_LCDC".data) (by decide)).1 ("V4.3.4_LCDC".data)
  have hl : "ok V4.3.4_LCDC\n".data = "ok V4.3.4_LCDC".data ++ ['\n'] := by decide
  rw [hl]
  exact h.mpr ⟨by decide, by decide, by decide⟩

/-- C1: classification of the single-line M27 reply — a success arises
exactly from the not-printing message followed by an ok line, giving IDLE
with both byte counts absent, or from `SD printing byte <cur>/<total>`
followed by an ok line, giving the byte counts with STARTING_PRINT
exactly when cur is zero and PRINTING otherwise; every other reply gives
the unexpected-response failure carrying the raw text. -/
theorem C1_print_status_classification (line : List Char) :
    (∀ st, get_print_status line = .ok st ↔
      (((∃ tail, line = notPrintingMsg ++ 'o' :: 'k' :: tail) ∧
          st = ⟨.IDLE, none, none⟩) ∨
       (∃ curDs totDs tail, curDs ≠ [] ∧ totDs ≠ [] ∧
         (∀ c ∈ curDs, c.isDigit = true) ∧ (∀ c ∈ totDs, c.isDigit = true) ∧
         line = sdPrintingMsg ++ (curDs ++ '/' :: (totDs ++ '\r' :: '\n' :: 'o' :: 'k' :: tail)) ∧
         st = ⟨if digitsVal curDs = 0 then .STARTING_PRINT else .PRINTING,
               some (digitsVal curDs), some (digitsVal totDs)⟩))) ∧
    (get_print_status line = .error (.unexpectedResponse line) ∨
      ∃ st, get_print_status line = .ok st) := by
  have hgo : ∀ st, get_print_status line = .ok st ↔ printStatusOfLine line = some st := by
    intro st
    cases hp : printStatusOfLine line with
    | some s => simp [get_print_status, hp]
    | none => simp [get_print_status, hp]
  constructor
  · intro st
    rw [hgo st]
    constructor
    · intro h
      unfold printStatusOfLine at h
      split at h
      · next hcond =>
        rw [Bool.and_eq_true] at hcond
        obtain ⟨t, ht⟩ := isPrefixOfExists _ _ hcond.1
        rw [ht, List.drop_left] at hcond
        obtain ⟨tail, htail⟩ := (isOkLineIff _).mp hcond.2
        refine Or.inl ⟨⟨tail, by rw [ht, htail]⟩, ?_⟩
        simpa using h.symm
      · split at h
        · next hsd =>
          split at h
          · next cur rest hcur =>
            split at h
            · next total rest2 htotal =>
              split at h
              · next hok =>
                obtain ⟨preTail, hpre⟩ := isPrefixOfExists _ _ hsd
                rw [hpre, List.drop_left] at hcur
                obtain ⟨curDs, hcne, hcd, hpre2, hcurval⟩ := parseNatInv _ _ _ hcur
                obtain ⟨totDs, htne, htd, hrest2, htotval⟩ := parseNatInv _ _ _ htotal
                obtain ⟨tail, hok2⟩ := (isOkLineIff _).mp hok
                subst hcurval
                subst htotval
                refine Or.inr ⟨curDs, totDs, tail, hcne, htne, hcd, htd, ?_, ?_⟩
                · rw [hpre, hpre2, hrest2, hok2]
                · simpa using h.symm
              · exact absurd h (by simp)
            · exact absurd h (by simp)
          · exact absurd h (by simp)
        · exact absurd h (by simp)
    · intro hshape
      rcases hshape with ⟨⟨tail, rfl⟩, rfl⟩ |
        ⟨curDs, totDs, tail, hcne, htne, hcd, htd, rfl, rfl⟩
      · have h1 : notPrintingMsg.isPrefixOf (notPrintingMsg ++ 'o' :: 'k' :: tail) = true :=
          isPrefixOfAppend _ _
        have h2 : (notPrintingMsg ++ 'o' :: 'k' :: tail).drop notPrintingMsg.length
            = 'o' :: 'k' :: tail := List.drop_left _ _
        have h3 : isOkLine ('o' :: 'k' :: tail) = true := (isOkLineIff _).mpr ⟨tail, rfl⟩
        simp [printStatusOfLine, h1, h2, h3]
      · have hE2 : notPrintingMsg
            = 'E' :: ("rror:It".data ++ ([Char.ofNat 39] ++ "s not printing now!\r\n".data)) := by
          decide
        have hS2 : sdPrintingMsg ++ (curDs ++ '/' :: (totDs ++ '\r' :: '\n' :: 'o' :: 'k' :: tail))
            = 'S' :: ("D printing byte ".data
                ++ (curDs ++ '/' :: (totDs ++ '\r' :: '\n' :: 'o' :: 'k' :: tail))) := by
          rw [show sdPrintingMsg = 'S' :: "D printing byte ".data by decide]
          rfl
        have hA : notPrintingMsg.isPrefixOf
            (sdPrintingMsg ++ (curDs ++ '/' :: (totDs ++ '\r' :: '\n' :: 'o' :: 'k' :: tail)))
            = false := by
          rw [hE2, hS2]
          exact isPrefixOfConsFalse _ _ _ _ (by decide)
        have hB : sdPrintingMsg.isPrefixOf
            (sdPrintingMsg ++ (curDs ++ '/' :: (totDs ++ '\r' :: '\n' :: 'o' :: 'k' :: tail)))
            = true := isPrefixOfAppend _ _
        have hdrop : (sdPrintingMsg
              ++ (curDs ++ '/' :: (totDs ++ '\r' :: '\n' :: 'o' :: 'k' :: tail))).drop
              sdPrintingMsg.length
            = curDs ++ '/' :: (totDs ++ '\r' :: '\n' :: 'o' :: 'k' :: tail) :=
          List.drop_left _ _
        have hok3 : isOkLine ('o' :: 'k' :: tail) = true := (isOkLineIff _).mpr ⟨tail, rfl⟩
        have hp1 : parseNat (curDs ++ '/' :: (totDs ++ '\r' :: '\n' :: 'o' :: 'k' :: tail))
            = some (digitsVal curDs, '/' :: (totDs ++ '\r' :: '\n' :: 'o' :: 'k' :: tail)) :=
          parseNatAppend _ _ _ hcne hcd (by decide)
        have hp2 : parseNat (totDs ++ '\r' :: '\n' :: 'o' :: 'k' :: tail)
            = some (digitsVal totDs, '\r' :: '\n' :: 'o' :: 'k' :: tail) :=
          parseNatAppend _ _ _ htne htd (by decide)
        simp [printStatusOfLine, hA, hB, hdrop, hp1, hp2, hok3]
  · cases hp : printStatusOfLine line with
    | some st => exact Or.inr ⟨st, by simp [get_print_status, hp]⟩
    | none => exact Or.inl (by simp [get_print_status, hp])

/-- Witness for C1 at the starting-print fixture. -/
theorem C1_print_status_classification_witness :
    get_print_status ("SD printing byte 0/23543968\r\nok N:0\r\n".data)
      = .ok ⟨.STARTING_PRINT, some 0, some 23543968⟩ := by
  have h := (C1_print_status_classification
      ("SD printing byte 0/23543968\r\nok N:0\r\n".data)).1
    ⟨.STARTING_PRINT, some 0, some 23543968⟩
  exact h.mpr (Or.inr ⟨['0'], "23543968".data, " N:0\r\n".data,
    by decide, by decide, by decide, by decide, by decide, by decide⟩)

/-- C2: move_by writes exactly `G0 Z<delta> F<rate> I0`: the delta carries
an explicit minus sign when negative, then its integer digits, a dot and
exactly one fractional digit completing the magnitude in tenths; the
one-argument form uses feed rate 600; and the spec's three examples
render exactly as stated. -/
theorem C2_move_by_format :
    (∀ t rate, move_by t rate
      = "G0 Z".data ++ fmtTenths t ++ " F".data ++ natDigits rate ++ " I0".data) ∧
    (∀ t : Int, ∃ intDs d,
      (∀ c ∈ intDs, c.isDigit = true) ∧ d.isDigit = true ∧
      fmtTenths t = (if t < 0 then ['-'] else []) ++ intDs ++ ['.', d] ∧
      digitsVal intDs * 10 + (d.toNat - 48) = t.natAbs) ∧
    (∀ t, move_by1 t = move_by t 600) ∧
    move_by1 100 = "G0 Z10.0 F600 I0".data ∧
    move_by1 (-100) = "G0 Z-10.0 F600 I0".data ∧
    move_by 153 30 = "G0 Z15.3 F30 I0".data := by
  refine ⟨fun t rate => rfl, ?_, fun t => rfl, by decide, by decide, by decide⟩
  intro t
  obtain ⟨hd1, hne1, hv1⟩ := natDigitsSpec (t.natAbs / 10)
  have hmod : t.natAbs % 10 < 10 := Nat.mod_lt _ (by omega)
  obtain ⟨hd2, hv2⟩ := digitCharSpec (t.natAbs % 10) hmod
  refine ⟨natDigits (t.natAbs / 10), Nat.digitChar (t.natAbs % 10), hd1, hd2, ?_, ?_⟩
  · simp [fmtTenths, natDigitsSmall _ hmod]
  · rw [hv1, hv2]
    omega

/-- Witness for C2 at the explicit-feed-rate example. -/
theorem C2_move_by_format_witness : move_by 153 30 = "G0 Z15.3 F30 I0".data :=
  C2_move_by_format.2.2.2.2.2
